import Mathlib

/-!
Verification of the fish-behavior-analysis pipeline.

The development shallowly embeds the behavior-analysis core of the
repository: `FishBehaviorAnalyzer.analyze_behavior` (core/analyzer.py),
`OpticalFlowProcessor.compute_flow_between_frames` (core/flow_processor.py)
and the `ResultsExporter` functions (utils/file_utils.py).  Frames and
per-pair arrays are matrices of rationals (`Mat`).  The external OpenCV /
numpy primitives (Farneback dense flow, `cartToPolar`, `np.random.choice`,
`np.degrees`) are not code of this repository; they enter as parameters
carrying exactly the contract the specification assigns them.
-/

namespace FishSpec

/-- A 2-D array (image, flow field, magnitude/angle array): a list of rows. -/
abbrev Mat (α : Type) := List (List α)

/-- Spatial dimensions of a matrix: (number of rows, length of the first row). -/
def matDims {α : Type} (m : Mat α) : Nat × Nat :=
  (m.length, (m.headD []).length)

/-- A matrix is non-empty when it has at least one row and its first row has at least one cell. -/
def matNonempty {α : Type} (m : Mat α) : Bool :=
  !m.isEmpty && !(m.headD []).isEmpty

/-- Apply a function to every cell. -/
def matMap {α β : Type} (f : α → β) (m : Mat α) : Mat β :=
  m.map (List.map f)

/-- Elementwise addition of two matrices (numpy `+=` on same-shape arrays). -/
def matAdd (a b : Mat ℚ) : Mat ℚ :=
  List.zipWith (List.zipWith (· + ·)) a b

/-- Total number of cells of a matrix, the length of its flattening. -/
def matCells {α : Type} (m : Mat α) : Nat :=
  m.flatten.length

/-- Mean over all cells (`np.mean`), as the sum of all cells over the cell count. -/
def matMean (m : Mat ℚ) : ℚ :=
  (m.flatten.sum) / (matCells m : ℚ)

/-- Error taxonomy of the analysis pipeline (spec section 7): the repository
raises `ValueError` / propagates the flow engine's error; the spec names the
conditions InsufficientData, ShapeMismatch and the missing-results guard. -/
inductive AnalysisError : Type where
  | insufficientData : AnalysisError
  | shapeMismatch : AnalysisError
  | noResults : AnalysisError
deriving DecidableEq, Repr

/-- Modelled from the spec: the external OpenCV primitives used by the core.
`cv2.calcOpticalFlowFarneback` is not code of this repository; the spec's Flow
Engine contract (section 4.1) says it is a pure function of its two same-shape
non-empty grayscale inputs and returns a dense displacement field with exactly
the first frame's spatial dimensions.  `farneback` is the field it returns on
valid inputs (numeric content abstract, dimensions constrained by
`farneback_dims`); `magOf` and `angOf` are the per-cell magnitude and angle of
`cv2.cartToPolar`. -/
structure CVPrims : Type where
  farneback : Mat ℚ → Mat ℚ → Mat (ℚ × ℚ)
  farneback_dims : ∀ a b, matDims (farneback a b) = matDims a
  magOf : ℚ × ℚ → ℚ
  angOf : ℚ × ℚ → ℚ

/-- Modelled from the spec: running the Farneback primitive checks the Flow
Engine precondition — both frames non-empty and of identical dimensions —
and fails with ShapeMismatch when it is violated (spec section 4.1). -/
def farnebackRun (P : CVPrims) (a b : Mat ℚ) : Except AnalysisError (Mat (ℚ × ℚ)) :=
  if matNonempty a && matNonempty b && decide (matDims a = matDims b) then
    Except.ok (P.farneback a b)
  else
    Except.error AnalysisError.shapeMismatch

/-- Magnitude component of `cv2.cartToPolar` applied to a flow field. -/
def cartToPolarMag (P : CVPrims) (flow : Mat (ℚ × ℚ)) : Mat ℚ :=
  matMap P.magOf flow

/-- Angle component of `cv2.cartToPolar` applied to a flow field. -/
def cartToPolarAng (P : CVPrims) (flow : Mat (ℚ × ℚ)) : Mat ℚ :=
  matMap P.angOf flow

/-- `OpticalFlowProcessor.compute_flow_between_frames` (flow_processor.py):
computes the Farneback flow of the two frames and derives the per-cell
magnitude with `cv2.cartToPolar`, returning the pair `(flow, magnitude)`. -/
def compute_flow_between_frames (P : CVPrims) (frame1 frame2 : Mat ℚ) :
    Except AnalysisError (Mat (ℚ × ℚ) × Mat ℚ) :=
  match farnebackRun P frame1 frame2 with
  | Except.error e => Except.error e
  | Except.ok flow => Except.ok (flow, cartToPolarMag P flow)

/-- Configuration (config/settings.py), the fields the analysis core reads. -/
structure Config : Type where
  frame_skip : Nat := 1
  angle_sample_size : Nat := 1000
  sudden_change_threshold : ℚ := 5
deriving DecidableEq, Repr

/-- A sudden-change event record as appended by `analyze_behavior`
(`{'frame': i, 'speed_change': d, 'description': ...}`). -/
structure SuddenChange : Type where
  frame : Nat
  speed_change : ℚ
  description : String
deriving DecidableEq, Repr

/-- Run metadata stored in `analysis_results['metadata']`. -/
structure AnalysisMetadata : Type where
  video_path : String
  frame_skip : Nat
  frames_analyzed : Nat
  sudden_changes_count : Nat
deriving DecidableEq, Repr

/-- The `analysis_results` dictionary built at the end of `analyze_behavior`. -/
structure AnalysisResult : Type where
  avg_speeds : List ℚ
  angles : List ℚ
  sudden_changes : List SuddenChange
  heatmap : Option (Mat ℚ)
  metadata : AnalysisMetadata
deriving DecidableEq, Repr

/-- The mutable accumulators of the `analyze_behavior` loop
(`avg_speeds`, `all_angles`, `sudden_changes`, `heatmap`), initialized to
empty lists and `None` before the loop. -/
structure LoopState : Type where
  avg_speeds : List ℚ
  all_angles : List ℚ
  sudden_changes : List SuddenChange
  heatmap : Option (Mat ℚ)
deriving DecidableEq, Repr

/-- The loop accumulators before the first iteration. -/
def LoopState.init : LoopState :=
  { avg_speeds := [], all_angles := [], sudden_changes := [], heatmap := none }

/-- Modelled from the spec: the random index draw `np.random.choice(n,
size=k, replace=False)` is an external numpy primitive; a `Sampler` takes the
population size and the sample size and yields the drawn indices. -/
abbrev Sampler := Nat → Nat → List Nat

/-- The documented contract of `np.random.choice(n, size=k, replace=False)`
for `k ≤ n`: it returns exactly `k` distinct indices below `n`. -/
def SamplerSpec (sampler : Sampler) : Prop :=
  ∀ n k, k ≤ n →
    (sampler n k).length = k ∧ (sampler n k).Nodup ∧ ∀ j ∈ sampler n k, j < n

/-- One iteration of the `analyze_behavior` loop body (analyzer.py, the body
of `for i in range(1, len(frame_files))`): compute the pair's flow and
magnitude, append the mean speed, sample angles from the flattened Angle
array, accumulate the heatmap, and from the second pair on test the
consecutive-speed difference against the threshold. -/
def stepPair (P : CVPrims) (sampler : Sampler) (cfg : Config)
    (st : LoopState) (i : Nat) (prev_gray gray : Mat ℚ) :
    Except AnalysisError LoopState :=
  match compute_flow_between_frames P prev_gray gray with
  | Except.error e => Except.error e
  | Except.ok (flow, magnitude) =>
    let avg_speed := matMean magnitude
    let avg_speeds := st.avg_speeds ++ [avg_speed]
    let angle_flat := (cartToPolarAng P flow).flatten
    let sample_size := min cfg.angle_sample_size angle_flat.length
    let sample_indices := sampler angle_flat.length sample_size
    let sampled_angles := sample_indices.map (fun j => angle_flat.getD j 0)
    let all_angles := st.all_angles ++ sampled_angles
    let heatmap :=
      match st.heatmap with
      | none => some magnitude
      | some h => some (matAdd h magnitude)
    let sudden_changes :=
      if 1 < i then
        let speed_diff := |avg_speed - st.avg_speeds.getLastD 0|
        if cfg.sudden_change_threshold < speed_diff then
          st.sudden_changes ++
            [{ frame := i, speed_change := speed_diff,
               description := "Possible snapping/grazing behavior" }]
        else st.sudden_changes
      else st.sudden_changes
    Except.ok { avg_speeds := avg_speeds, all_angles := all_angles,
                sudden_changes := sudden_changes, heatmap := heatmap }

/-- The `analyze_behavior` loop over the remaining frames: `prev_gray` is
frame `i - 1`, the head of the list is frame `i`.  An error of any iteration
aborts the whole loop (a raised exception propagates). -/
def runPairs (P : CVPrims) (sampler : Sampler) (cfg : Config) :
    LoopState → Nat → Mat ℚ → List (Mat ℚ) → Except AnalysisError LoopState
  | st, _, _, [] => Except.ok st
  | st, i, prev_gray, gray :: rest =>
    match stepPair P sampler cfg st i prev_gray gray with
    | Except.error e => Except.error e
    | Except.ok st' => runPairs P sampler cfg st' (i + 1) gray rest

/-- The state of a `FishBehaviorAnalyzer` object that `analyze_behavior`
reads and writes: the video path, the configuration, and the stored
`analysis_results` (`{}` before any successful run, modelled as `none`). -/
structure FishBehaviorAnalyzer : Type where
  video_path : String
  config : Config
  analysis_results : Option AnalysisResult
deriving DecidableEq, Repr

/-- `FishBehaviorAnalyzer.analyze_behavior` (analyzer.py): requires at least
two frames (`raise ValueError` otherwise, before any computation), runs the
per-pair loop from index 1, and only on completion of every pair stores and
returns the results dictionary.  The returned pair is the analyzer state
after the call together with the call's outcome. -/
def analyze_behavior (P : CVPrims) (sampler : Sampler)
    (a : FishBehaviorAnalyzer) (frame_files : List (Mat ℚ)) :
    FishBehaviorAnalyzer × Except AnalysisError AnalysisResult :=
  match frame_files with
  | f0 :: f1 :: rest =>
    match runPairs P sampler a.config LoopState.init 1 f0 (f1 :: rest) with
    | Except.error e => (a, Except.error e)
    | Except.ok ls =>
      let result : AnalysisResult :=
        { avg_speeds := ls.avg_speeds,
          angles := ls.all_angles,
          sudden_changes := ls.sudden_changes,
          heatmap := ls.heatmap,
          metadata :=
            { video_path := a.video_path,
              frame_skip := a.config.frame_skip,
              frames_analyzed := ls.avg_speeds.length,
              sudden_changes_count := ls.sudden_changes.length } }
      ({ a with analysis_results := some result }, Except.ok result)
  | _ => (a, Except.error AnalysisError.insufficientData)

/-- The data `FishBehaviorAnalyzer.visualize_results` hands to the three
plotting calls when results are available. -/
structure VisualizationCalls : Type where
  speed_timeline : List ℚ
  direction_histogram : List ℚ
  movement_heatmap : Option (Mat ℚ)
deriving DecidableEq, Repr

/-- `FishBehaviorAnalyzer.visualize_results` (analyzer.py): raises
`ValueError` when `self.analysis_results` is empty, otherwise passes the
stored speeds, angles and heatmap to the visualizer. -/
def visualize_results (a : FishBehaviorAnalyzer) :
    Except AnalysisError VisualizationCalls :=
  match a.analysis_results with
  | none => Except.error AnalysisError.noResults
  | some r =>
    Except.ok { speed_timeline := r.avg_speeds,
                direction_histogram := r.angles,
                movement_heatmap := r.heatmap }

/-- The speed table written by `ResultsExporter.export_speeds_csv`
(file_utils.py): a `frame_idx` column `list(range(1, len(speeds) + 1))`
alongside the `average_speed` column. -/
structure SpeedTable : Type where
  frame_idx : List Nat
  average_speed : List ℚ
deriving DecidableEq, Repr

/-- `ResultsExporter.export_speeds_csv` (file_utils.py). -/
def export_speeds_csv (speeds : List ℚ) : SpeedTable :=
  { frame_idx := List.range' 1 speeds.length, average_speed := speeds }

/-- Floored modulo on rationals, the semantics of numpy `%` (`np.mod`):
the remainder has the sign of the divisor. -/
def npMod (x y : ℚ) : ℚ :=
  x - y * ((Int.floor (x / y) : ℤ) : ℚ)

/-- The degree normalization `(np.degrees(np.array(angles)) + 360) % 360`
shared by `ResultsExporter.export_directions_json` (file_utils.py) and
`FlowVisualizer.plot_direction_histogram` (visualization.py).  `degreesOf`
stands for the external `np.degrees` radian-to-degree conversion (its exact
factor `180 / pi` is irrational and left abstract). -/
def angles_deg (degreesOf : ℚ → ℚ) (angles : List ℚ) : List ℚ :=
  angles.map (fun a => npMod (degreesOf a + 360) 360)

/-- The `behavior_events` entry of `ResultsExporter.export_summary_stats`
(file_utils.py): the event count and
`len(sudden_changes) / len(speeds) if speeds else 0`. -/
structure BehaviorEvents : Type where
  sudden_changes_count : Nat
  sudden_changes_rate : ℚ
deriving DecidableEq, Repr

/-- The `behavior_events` part of `ResultsExporter.export_summary_stats`. -/
def export_summary_behavior_events (sudden_changes : List SuddenChange)
    (speeds : List ℚ) : BehaviorEvents :=
  { sudden_changes_count := sudden_changes.length,
    sudden_changes_rate :=
      if speeds.isEmpty then 0
      else (sudden_changes.length : ℚ) / (speeds.length : ℚ) }

/-- The artifacts produced by `ResultsExporter.export_all` (file_utils.py),
keeping the data each export call serializes. -/
structure ExportArtifacts : Type where
  speeds_csv : SpeedTable
  directions_deg : List ℚ
  changes_json : List SuddenChange
  metadata_json : AnalysisMetadata
  summary_behavior_events : BehaviorEvents
deriving DecidableEq, Repr

/-- `ResultsExporter.export_all` (file_utils.py) on an analysis result. -/
def export_all (degreesOf : ℚ → ℚ) (r : AnalysisResult) : ExportArtifacts :=
  { speeds_csv := export_speeds_csv r.avg_speeds,
    directions_deg := angles_deg degreesOf r.angles,
    changes_json := r.sudden_changes,
    metadata_json := r.metadata,
    summary_behavior_events :=
      export_summary_behavior_events r.sudden_changes r.avg_speeds }

/-- `FishBehaviorAnalyzer.export_results` (analyzer.py): raises `ValueError`
when `self.analysis_results` is empty, otherwise exports everything. -/
def export_results (degreesOf : ℚ → ℚ) (a : FishBehaviorAnalyzer) :
    Except AnalysisError ExportArtifacts :=
  match a.analysis_results with
  | none => Except.error AnalysisError.noResults
  | some r => Except.ok (export_all degreesOf r)

end FishSpec

namespace FishSpec

/-- Spec-side recomputation of the sudden-change events from a speed list,
following the spec's words (section 4.2, step 6): walking the speeds with the
previous value at hand, pair index `i`, emit an event exactly when the
absolute consecutive difference strictly exceeds the threshold. -/
def specFrom (t prev : ℚ) (i : Nat) : List ℚ → List SuddenChange
  | [] => []
  | s :: rest =>
    (if t < |s - prev| then
      [{ frame := i, speed_change := |s - prev|,
         description := "Possible snapping/grazing behavior" }]
     else []) ++ specFrom t s (i + 1) rest

/-- Spec-side recomputation of all sudden-change events of a run: the first
pair (index 1) never yields an event; testing starts at pair index 2. -/
def specSuddenChanges (t : ℚ) : List ℚ → List SuddenChange
  | [] => []
  | s :: rest => specFrom t s 2 rest

/-- The per-pair Magnitude arrays of a frame sequence, in pair order: for
each adjacent pair the per-cell magnitude of its Farneback flow field. -/
def pairMagnitudes (P : CVPrims) : Mat ℚ → List (Mat ℚ) → List (Mat ℚ)
  | _, [] => []
  | prev, cur :: rest =>
    cartToPolarMag P (P.farneback prev cur) :: pairMagnitudes P cur rest

/-- Elementwise sum of a list of magnitude arrays, the first array seeding
the accumulator (spec section 4.2, step 5). -/
def elementwiseSumHeatmap : List (Mat ℚ) → Option (Mat ℚ)
  | [] => none
  | m :: rest => some (rest.foldl matAdd m)

/-- The step the heatmap accumulator takes on one magnitude array. -/
def heatmapStep (acc : Option (Mat ℚ)) (m : Mat ℚ) : Option (Mat ℚ) :=
  match acc with
  | none => some m
  | some h => some (matAdd h m)

lemma matDims_matMap {α β : Type} (f : α → β) (m : Mat α) :
    matDims (matMap f m) = matDims m := by
  cases m <;> simp [matDims, matMap]

lemma matDims_matAdd_eq (a b : Mat ℚ) (h : matDims a = matDims b) :
    matDims (matAdd a b) = matDims a := by
  cases a with
  | nil =>
    cases b with
    | nil => rfl
    | cons r bs =>
      simp only [matDims, List.length_nil, List.length_cons, Prod.mk.injEq] at h
      omega
  | cons ra as =>
    cases b with
    | nil =>
      simp only [matDims, List.length_nil, List.length_cons, Prod.mk.injEq] at h
      omega
    | cons rb bs =>
      simp only [matDims, List.headD_cons, List.length_cons, Prod.mk.injEq] at h
      simp only [matAdd, matDims, List.zipWith_cons_cons, List.headD_cons,
        List.length_cons, List.length_zipWith, Prod.mk.injEq]
      omega

lemma stepPair_ok_cases (P : CVPrims) (sampler : Sampler) (cfg : Config)
    (st : LoopState) (i : Nat) (prev_gray gray : Mat ℚ) (st' : LoopState)
    (h : stepPair P sampler cfg st i prev_gray gray = Except.ok st') :
    matNonempty prev_gray = true ∧ matNonempty gray = true ∧
      matDims prev_gray = matDims gray := by
  unfold stepPair compute_flow_between_frames farnebackRun at h
  by_cases hc : (matNonempty prev_gray && matNonempty gray
      && decide (matDims prev_gray = matDims gray)) = true
  · simp only [Bool.and_eq_true, decide_eq_true_eq] at hc
    exact ⟨hc.1.1, hc.1.2, hc.2⟩
  · simp [hc] at h

lemma stepPair_error (P : CVPrims) (sampler : Sampler) (cfg : Config)
    (st : LoopState) (i : Nat) (prev_gray gray : Mat ℚ) (e : AnalysisError)
    (h : stepPair P sampler cfg st i prev_gray gray = Except.error e) :
    e = AnalysisError.shapeMismatch := by
  unfold stepPair compute_flow_between_frames farnebackRun at h
  by_cases hc : (matNonempty prev_gray && matNonempty gray
      && decide (matDims prev_gray = matDims gray)) = true
  · simp [hc] at h
  · simp only [hc, Bool.false_eq_true, if_false, Except.error.injEq] at h
    exact h.symm

/-- On success the step appends exactly one mean speed. -/
lemma stepPair_ok_fields (P : CVPrims) (sampler : Sampler) (cfg : Config)
    (st : LoopState) (i : Nat) (prev_gray gray : Mat ℚ) (st' : LoopState)
    (h : stepPair P sampler cfg st i prev_gray gray = Except.ok st') :
    st'.avg_speeds = st.avg_speeds ++ [matMean (cartToPolarMag P (P.farneback prev_gray gray))] ∧
    st'.heatmap = heatmapStep st.heatmap (cartToPolarMag P (P.farneback prev_gray gray)) ∧
    st'.sudden_changes =
      (if 1 < i then
        (if cfg.sudden_change_threshold <
            |matMean (cartToPolarMag P (P.farneback prev_gray gray)) - st.avg_speeds.getLastD 0| then
          st.sudden_changes ++
            [{ frame := i,
               speed_change :=
                 |matMean (cartToPolarMag P (P.farneback prev_gray gray)) - st.avg_speeds.getLastD 0|,
               description := "Possible snapping/grazing behavior" }]
         else st.sudden_changes)
       else st.sudden_changes) := by
  unfold stepPair compute_flow_between_frames farnebackRun at h
  by_cases hc : (matNonempty prev_gray && matNonempty gray
      && decide (matDims prev_gray = matDims gray)) = true
  · simp only [hc, if_true, Except.ok.injEq] at h
    subst h
    refine ⟨rfl, ?_, rfl⟩
    cases hm : st.heatmap <;> simp [heatmapStep, hm]
  · simp [hc] at h

end FishSpec

namespace FishSpec

lemma runPairs_ok_speeds_length (P : CVPrims) (sampler : Sampler) (cfg : Config) :
    ∀ (rest : List (Mat ℚ)) (st : LoopState) (i : Nat) (prev : Mat ℚ) (ls : LoopState),
      runPairs P sampler cfg st i prev rest = Except.ok ls →
      ls.avg_speeds.length = st.avg_speeds.length + rest.length := by
  intro rest
  induction rest with
  | nil =>
    intro st i prev ls h
    simp only [runPairs, Except.ok.injEq] at h
    subst h
    simp
  | cons gray rest ih =>
    intro st i prev ls h
    unfold runPairs at h
    cases hs : stepPair P sampler cfg st i prev gray with
    | error e => rw [hs] at h; exact absurd h (by simp)
    | ok st' =>
      rw [hs] at h
      have hrec := ih st' (i + 1) gray ls h
      have hf := (stepPair_ok_fields P sampler cfg st i prev gray st' hs).1
      rw [hrec, hf]
      simp only [List.length_append, List.length_cons, List.length_nil]
      omega

lemma runPairs_error_shape (P : CVPrims) (sampler : Sampler) (cfg : Config) :
    ∀ (rest : List (Mat ℚ)) (st : LoopState) (i : Nat) (prev : Mat ℚ) (e : AnalysisError),
      runPairs P sampler cfg st i prev rest = Except.error e →
      e = AnalysisError.shapeMismatch := by
  intro rest
  induction rest with
  | nil => intro st i prev e h; simp [runPairs] at h
  | cons gray rest ih =>
    intro st i prev e h
    unfold runPairs at h
    cases hs : stepPair P sampler cfg st i prev gray with
    | error e' =>
      rw [hs] at h
      have he : e' = e := by simpa using h
      rw [← he]
      exact stepPair_error P sampler cfg st i prev gray e' hs
    | ok st' =>
      rw [hs] at h
      exact ih st' (i + 1) gray e h

/-- The adjacency relation a successful run certifies for consecutive frames. -/
def FramePairOK (a b : Mat ℚ) : Prop :=
  matNonempty a = true ∧ matNonempty b = true ∧ matDims a = matDims b

lemma runPairs_ok_chain (P : CVPrims) (sampler : Sampler) (cfg : Config) :
    ∀ (rest : List (Mat ℚ)) (st : LoopState) (i : Nat) (prev : Mat ℚ) (ls : LoopState),
      runPairs P sampler cfg st i prev rest = Except.ok ls →
      List.Chain FramePairOK prev rest := by
  intro rest
  induction rest with
  | nil => intro st i prev ls _; exact List.Chain.nil
  | cons gray rest ih =>
    intro st i prev ls h
    unfold runPairs at h
    cases hs : stepPair P sampler cfg st i prev gray with
    | error e => rw [hs] at h; exact absurd h (by simp)
    | ok st' =>
      rw [hs] at h
      exact List.Chain.cons (stepPair_ok_cases P sampler cfg st i prev gray st' hs)
        (ih st' (i + 1) gray ls h)

lemma chain_dims_all :
    ∀ (rest : List (Mat ℚ)) (prev : Mat ℚ),
      List.Chain FramePairOK prev rest →
      ∀ m ∈ rest, matDims m = matDims prev := by
  intro rest
  induction rest with
  | nil => intro prev _ m hm; exact absurd hm (by simp)
  | cons gray rest ih =>
    intro prev hc m hm
    cases hc with
    | cons hR hc' =>
      rcases List.mem_cons.mp hm with rfl | hm'
      · exact hR.2.2.symm
      · exact (ih gray hc' m hm').trans hR.2.2.symm

lemma chain_adjacent_getD {R : Mat ℚ → Mat ℚ → Prop} :
    ∀ (rest : List (Mat ℚ)) (prev : Mat ℚ),
      List.Chain R prev rest →
      ∀ i, i + 1 < (prev :: rest).length →
        R ((prev :: rest).getD i []) ((prev :: rest).getD (i + 1) []) := by
  intro rest
  induction rest with
  | nil => intro prev _ i hi; simp at hi
  | cons gray rest ih =>
    intro prev hc i hi
    cases hc with
    | cons hR hc' =>
      cases i with
      | zero => simpa using hR
      | succ j =>
        have := ih gray hc' j (by simpa using hi)
        simpa using this

lemma runPairs_heatmap (P : CVPrims) (sampler : Sampler) (cfg : Config) :
    ∀ (rest : List (Mat ℚ)) (st : LoopState) (i : Nat) (prev : Mat ℚ) (ls : LoopState),
      runPairs P sampler cfg st i prev rest = Except.ok ls →
      ls.heatmap = (pairMagnitudes P prev rest).foldl heatmapStep st.heatmap := by
  intro rest
  induction rest with
  | nil =>
    intro st i prev ls h
    simp only [runPairs, Except.ok.injEq] at h
    subst h
    simp [pairMagnitudes]
  | cons gray rest ih =>
    intro st i prev ls h
    unfold runPairs at h
    cases hs : stepPair P sampler cfg st i prev gray with
    | error e => rw [hs] at h; exact absurd h (by simp)
    | ok st' =>
      rw [hs] at h
      have hrec := ih st' (i + 1) gray ls h
      have hf := (stepPair_ok_fields P sampler cfg st i prev gray st' hs).2.1
      rw [hrec, hf]
      simp [pairMagnitudes]

lemma foldl_heatmapStep_some (rest : List (Mat ℚ)) :
    ∀ h : Mat ℚ, rest.foldl heatmapStep (some h) = some (rest.foldl matAdd h) := by
  induction rest with
  | nil => intro h; rfl
  | cons m rest ih => intro h; simpa [heatmapStep] using ih (matAdd h m)

lemma foldl_heatmapStep_none (mags : List (Mat ℚ)) :
    mags.foldl heatmapStep none = elementwiseSumHeatmap mags := by
  cases mags with
  | nil => rfl
  | cons m rest =>
    simp only [List.foldl_cons, heatmapStep, elementwiseSumHeatmap]
    exact foldl_heatmapStep_some rest m

lemma foldl_matAdd_dims (d : Nat × Nat) :
    ∀ (mags : List (Mat ℚ)) (h0 : Mat ℚ),
      matDims h0 = d → (∀ m ∈ mags, matDims m = d) →
      matDims (mags.foldl matAdd h0) = d := by
  intro mags
  induction mags with
  | nil => intro h0 hd _; simpa using hd
  | cons m rest ih =>
    intro h0 hd hall
    have hm : matDims m = d := hall m (by simp)
    have hadd : matDims (matAdd h0 m) = d := by
      rw [matDims_matAdd_eq h0 m (hd.trans hm.symm)]; exact hd
    exact ih (matAdd h0 m) hadd (fun x hx => hall x (by simp [hx]))

lemma pairMagnitudes_dims (P : CVPrims) :
    ∀ (rest : List (Mat ℚ)) (prev : Mat ℚ),
      List.Chain FramePairOK prev rest →
      ∀ m ∈ pairMagnitudes P prev rest, matDims m = matDims prev := by
  intro rest
  induction rest with
  | nil => intro prev _ m hm; exact absurd hm (by simp [pairMagnitudes])
  | cons gray rest ih =>
    intro prev hc m hm
    cases hc with
    | cons hR hc' =>
      rcases List.mem_cons.mp hm with rfl | hm'
      · rw [cartToPolarMag, matDims_matMap]
        exact P.farneback_dims prev gray
      · exact (ih gray hc' m hm').trans hR.2.2.symm

end FishSpec

namespace FishSpec

lemma specFrom_length (t : ℚ) :
    ∀ (xs : List ℚ) (p : ℚ) (i : Nat), (specFrom t p i xs).length ≤ xs.length := by
  intro xs
  induction xs with
  | nil => intro p i; simp [specFrom]
  | cons s rest ih =>
    intro p i
    have hrec := ih s (i + 1)
    by_cases hd : t < |s - p| <;> simp [specFrom, hd] <;> omega

lemma specFrom_append (t s : ℚ) :
    ∀ (xs : List ℚ) (p : ℚ) (i : Nat),
      specFrom t p i (xs ++ [s]) =
        specFrom t p i xs ++
          (if t < |s - xs.getLastD p| then
            [{ frame := i + xs.length, speed_change := |s - xs.getLastD p|,
               description := "Possible snapping/grazing behavior" }]
           else []) := by
  intro xs
  induction xs with
  | nil =>
    intro p i
    simp [specFrom]
  | cons x xs ih =>
    intro p i
    simp only [List.cons_append, specFrom, List.append_eq, ih x (i + 1),
      List.getLastD_cons, List.length_cons, List.append_assoc]
    have hidx : i + 1 + xs.length = i + (xs.length + 1) := by omega
    rw [hidx]

lemma runPairs_sudden_spec (P : CVPrims) (sampler : Sampler) (cfg : Config) :
    ∀ (rest : List (Mat ℚ)) (st : LoopState) (prev : Mat ℚ) (ls : LoopState),
      runPairs P sampler cfg st (st.avg_speeds.length + 1) prev rest = Except.ok ls →
      st.sudden_changes = specSuddenChanges cfg.sudden_change_threshold st.avg_speeds →
      ls.sudden_changes = specSuddenChanges cfg.sudden_change_threshold ls.avg_speeds := by
  intro rest
  induction rest with
  | nil =>
    intro st prev ls h hinv
    simp only [runPairs, Except.ok.injEq] at h
    subst h
    exact hinv
  | cons gray rest ih =>
    intro st prev ls h hinv
    unfold runPairs at h
    cases hs : stepPair P sampler cfg st (st.avg_speeds.length + 1) prev gray with
    | error e => rw [hs] at h; exact absurd h (by simp)
    | ok st' =>
      rw [hs] at h
      have hf := stepPair_ok_fields P sampler cfg st (st.avg_speeds.length + 1) prev gray st' hs
      have hlen : st'.avg_speeds.length = st.avg_speeds.length + 1 := by
        rw [hf.1]; simp
      have hinv' : st'.sudden_changes =
          specSuddenChanges cfg.sudden_change_threshold st'.avg_speeds := by
        rw [hf.2.2, hf.1, hinv]
        cases hsp : st.avg_speeds with
        | nil => simp [specSuddenChanges, specFrom]
        | cons x xs =>
          have hgt : 1 < (x :: xs).length + 1 := by simp
          rw [if_pos hgt]
          simp only [List.cons_append, specSuddenChanges, List.getLastD_cons,
            specFrom_append cfg.sudden_change_threshold _ xs x 2, List.length_cons]
          split <;> simp
          omega
      have h' : runPairs P sampler cfg st' (st'.avg_speeds.length + 1) gray rest =
          Except.ok ls := by
        rw [hlen]; exact h
      exact ih st' gray ls h' hinv'

end FishSpec

namespace FishSpec

lemma specFrom_frame_iff (t : ℚ) :
    ∀ (xs : List ℚ) (p : ℚ) (i k : Nat),
      (∃ e ∈ specFrom t p i xs, e.frame = k) ↔
        (i ≤ k ∧ k < i + xs.length ∧
          t < |xs.getD (k - i) 0 - (p :: xs).getD (k - i) 0|) := by
  intro xs
  induction xs with
  | nil =>
    intro p i k
    simp only [specFrom]
    constructor
    · rintro ⟨e, he, _⟩
      exact absurd he (List.not_mem_nil e)
    · rintro ⟨h1, h2, _⟩
      simp only [List.length_nil] at h2
      omega
  | cons s rest ih =>
    intro p i k
    rw [specFrom]
    constructor
    · rintro ⟨e, he, hk⟩
      rcases List.mem_append.mp he with he | he
      · by_cases hd : t < |s - p|
        · rw [if_pos hd] at he
          simp only [List.mem_singleton] at he
          have hfr : e.frame = i := by rw [he]
          have hki : k = i := by rw [← hk, hfr]
          subst hki
          refine ⟨le_refl _, by simp, ?_⟩
          simpa using hd
        · rw [if_neg hd] at he
          exact absurd he (List.not_mem_nil e)
      · obtain ⟨h1, h2, h3⟩ := (ih s (i + 1) k).mp ⟨e, he, hk⟩
        refine ⟨by omega, by simp only [List.length_cons]; omega, ?_⟩
        have hk1 : k - i = (k - (i + 1)) + 1 := by omega
        rw [hk1]
        simpa using h3
    · rintro ⟨h1, h2, h3⟩
      rcases Nat.eq_or_lt_of_le h1 with heq | hlt
      · subst heq
        have hd : t < |s - p| := by simpa using h3
        exact ⟨{ frame := i, speed_change := |s - p|,
                 description := "Possible snapping/grazing behavior" },
          List.mem_append.mpr (Or.inl (by rw [if_pos hd]; exact List.mem_singleton.mpr rfl)),
          rfl⟩
      · have hk1 : k - i = (k - (i + 1)) + 1 := by omega
        rw [hk1] at h3
        have h3' : t < |rest.getD (k - (i + 1)) 0 - (s :: rest).getD (k - (i + 1)) 0| := by
          simpa using h3
        simp only [List.length_cons] at h2
        obtain ⟨e, he, hk⟩ := (ih s (i + 1) k).mpr ⟨by omega, by omega, h3'⟩
        exact ⟨e, List.mem_append.mpr (Or.inr he), hk⟩

lemma specSuddenChanges_frame_iff (t : ℚ) (speeds : List ℚ) (k : Nat) :
    (∃ e ∈ specSuddenChanges t speeds, e.frame = k) ↔
      (2 ≤ k ∧ k ≤ speeds.length ∧
        t < |speeds.getD (k - 1) 0 - speeds.getD (k - 2) 0|) := by
  cases speeds with
  | nil =>
    constructor
    · rintro ⟨e, he, _⟩
      exact absurd he (by simp [specSuddenChanges])
    · rintro ⟨h1, h2, _⟩
      simp only [List.length_nil] at h2
      omega
  | cons s rest =>
    rw [specSuddenChanges, specFrom_frame_iff]
    constructor
    · rintro ⟨h1, h2, h3⟩
      refine ⟨h1, by simp only [List.length_cons]; omega, ?_⟩
      have hk1 : k - 1 = (k - 2) + 1 := by omega
      rw [hk1, List.getD_cons_succ]
      exact h3
    · rintro ⟨h1, h2, h3⟩
      refine ⟨h1, by simp only [List.length_cons] at h2; omega, ?_⟩
      have hk1 : k - 1 = (k - 2) + 1 := by omega
      rw [hk1, List.getD_cons_succ] at h3
      exact h3

lemma specSuddenChanges_length (t : ℚ) (speeds : List ℚ) :
    (specSuddenChanges t speeds).length ≤ speeds.length - 1 := by
  cases speeds with
  | nil => simp [specSuddenChanges]
  | cons s rest =>
    have := specFrom_length t rest s 2
    simpa [specSuddenChanges] using this

end FishSpec

namespace FishSpec

lemma analyze_behavior_ok (P : CVPrims) (sampler : Sampler) (a : FishBehaviorAnalyzer)
    (frames : List (Mat ℚ)) (a' : FishBehaviorAnalyzer) (r : AnalysisResult)
    (h : analyze_behavior P sampler a frames = (a', Except.ok r)) :
    ∃ f0 f1 rest ls,
      frames = f0 :: f1 :: rest ∧
      runPairs P sampler a.config LoopState.init 1 f0 (f1 :: rest) = Except.ok ls ∧
      r.avg_speeds = ls.avg_speeds ∧ r.angles = ls.all_angles ∧
      r.sudden_changes = ls.sudden_changes ∧ r.heatmap = ls.heatmap := by
  cases frames with
  | nil => exact absurd h (by simp [analyze_behavior])
  | cons f0 tl =>
    cases tl with
    | nil => exact absurd h (by simp [analyze_behavior])
    | cons f1 rest =>
      rw [analyze_behavior] at h
      cases hr : runPairs P sampler a.config LoopState.init 1 f0 (f1 :: rest) with
      | error e => rw [hr] at h; exact absurd h (by simp)
      | ok ls =>
        rw [hr] at h
        simp only [Prod.mk.injEq, Except.ok.injEq] at h
        refine ⟨f0, f1, rest, ls, rfl, hr, ?_, ?_, ?_, ?_⟩ <;> rw [← h.2]

/-- C3: for any frame sequence of length below two, `analyze_behavior` fails
with the InsufficientData error before computing anything, returning no
result and leaving the analyzer's stored `analysis_results` exactly as they
were before the call. -/
theorem insufficient_data_atomic (P : CVPrims) (sampler : Sampler)
    (a : FishBehaviorAnalyzer) (frames : List (Mat ℚ))
    (h : frames.length < 2) :
    analyze_behavior P sampler a frames =
      (a, Except.error AnalysisError.insufficientData) := by
  cases frames with
  | nil => rfl
  | cons f0 tl =>
    cases tl with
    | nil => rfl
    | cons f1 rest =>
      simp only [List.length_cons] at h
      omega

/-- C5: the exported summary's `sudden_changes_rate` is the event count
divided by the pair count (the length of the speeds list) whenever that
count is positive, and exactly 0 when there are no pairs, so the export
never divides by zero. -/
theorem sudden_changes_rate_safe (changes : List SuddenChange) (speeds : List ℚ) :
    (0 < speeds.length →
      (export_summary_behavior_events changes speeds).sudden_changes_rate =
        (changes.length : ℚ) / (speeds.length : ℚ)) ∧
    (speeds.length = 0 →
      (export_summary_behavior_events changes speeds).sudden_changes_rate = 0) := by
  constructor
  · intro hpos
    cases speeds with
    | nil => simp at hpos
    | cons s rest => simp [export_summary_behavior_events]
  · intro h0
    cases speeds with
    | nil => simp [export_summary_behavior_events]
    | cons s rest => simp at h0

lemma npMod_range_of_pos (x y : ℚ) (hy : 0 < y) : 0 ≤ npMod x y ∧ npMod x y < y := by
  unfold npMod
  constructor
  · have h1 : ((Int.floor (x / y) : ℤ) : ℚ) ≤ x / y := Int.floor_le _
    have h2 : ((Int.floor (x / y) : ℤ) : ℚ) * y ≤ x := (le_div_iff₀ hy).mp h1
    nlinarith [h2]
  · have h3 : x / y < ((Int.floor (x / y) : ℤ) : ℚ) + 1 := Int.lt_floor_add_one _
    have h4 : x < (((Int.floor (x / y) : ℤ) : ℚ) + 1) * y := (div_lt_iff₀ hy).mp h3
    nlinarith [h4]

/-- C7: every degree value produced by the shared normalization
`(np.degrees(angles) + 360) % 360` of the export and plotting paths lies in
the half-open interval `[0, 360)`, whatever the radian sample and the
radian-to-degree conversion produce. -/
theorem direction_degrees_range (degreesOf : ℚ → ℚ) (angles : List ℚ) (d : ℚ)
    (hd : d ∈ angles_deg degreesOf angles) : 0 ≤ d ∧ d < 360 := by
  unfold angles_deg at hd
  obtain ⟨a, _, rfl⟩ := List.mem_map.mp hd
  exact npMod_range_of_pos _ 360 (by norm_num)

/-- C10: when the analyzer's stored results are empty, both
`visualize_results` and `export_results` fail with the missing-results
error and hand nothing to the visualizer or the exporter. -/
theorem requires_results (degreesOf : ℚ → ℚ) (a : FishBehaviorAnalyzer)
    (h : a.analysis_results = none) :
    visualize_results a = Except.error AnalysisError.noResults ∧
    export_results degreesOf a = Except.error AnalysisError.noResults := by
  constructor
  · simp [visualize_results, h]
  · simp [export_results, h]

/-- C6: on non-empty grayscale frames of identical dimensions the pairwise
flow computation succeeds with a flow field and magnitude array of exactly
the first frame's spatial dimensions; on frames of different dimensions it
fails with the ShapeMismatch error, which `analyze_behavior` propagates,
aborting the run with no result and no state change. -/
theorem flow_shape_contract (P : CVPrims) :
    (∀ frame1 frame2 : Mat ℚ, matNonempty frame1 = true → matNonempty frame2 = true →
      matDims frame1 = matDims frame2 →
      ∃ flow mag, compute_flow_between_frames P frame1 frame2 = Except.ok (flow, mag) ∧
        matDims flow = matDims frame1 ∧ matDims mag = matDims frame1) ∧
    (∀ frame1 frame2 : Mat ℚ, matDims frame1 ≠ matDims frame2 →
      compute_flow_between_frames P frame1 frame2 =
        Except.error AnalysisError.shapeMismatch) ∧
    (∀ (sampler : Sampler) (a : FishBehaviorAnalyzer) (frames : List (Mat ℚ)),
      (∃ i, i + 1 < frames.length ∧
        matDims (frames.getD i []) ≠ matDims (frames.getD (i + 1) [])) →
      analyze_behavior P sampler a frames =
        (a, Except.error AnalysisError.shapeMismatch)) := by
  refine ⟨?_, ?_, ?_⟩
  · intro f1 f2 h1 h2 hdim
    have hcond : (matNonempty f1 && matNonempty f2 && decide (matDims f1 = matDims f2)) = true := by
      simp [h1, h2, hdim]
    refine ⟨P.farneback f1 f2, cartToPolarMag P (P.farneback f1 f2), ?_, ?_, ?_⟩
    · simp [compute_flow_between_frames, farnebackRun, hcond]
    · exact P.farneback_dims f1 f2
    · rw [cartToPolarMag, matDims_matMap]
      exact P.farneback_dims f1 f2
  · intro f1 f2 hne
    have hcond : (matNonempty f1 && matNonempty f2 && decide (matDims f1 = matDims f2)) = false := by
      simp [hne]
    simp [compute_flow_between_frames, farnebackRun, hcond]
  · intro sampler a frames hex
    obtain ⟨i, hi, hne⟩ := hex
    cases frames with
    | nil => simp at hi
    | cons f0 tl =>
      cases tl with
      | nil => simp at hi
      | cons f1 rest =>
        cases hr : runPairs P sampler a.config LoopState.init 1 f0 (f1 :: rest) with
        | ok ls =>
          have hchain := runPairs_ok_chain P sampler a.config (f1 :: rest)
            LoopState.init 1 f0 ls hr
          have hadj := chain_adjacent_getD (f1 :: rest) f0 hchain i (by simpa using hi)
          exact absurd hadj.2.2 hne
        | error e =>
          have he := runPairs_error_shape P sampler a.config (f1 :: rest)
            LoopState.init 1 f0 e hr
          subst he
          simp [analyze_behavior, hr]

end FishSpec

namespace FishSpec

lemma pairwise_lt_range_shift (s n : Nat) :
    List.Pairwise (· < ·) (List.range' s n) := by
  rw [List.range'_eq_map_range]
  exact (List.pairwise_lt_range n).map _ (fun a b hab => by omega)

/-- C2: a successful `analyze_behavior` run over `N` frames records exactly
`N - 1` per-pair average speeds, and `export_speeds_csv` labels them with
1-based `frame_idx` values `1 .. N - 1` in strictly increasing order. -/
theorem frame_statistics_count (P : CVPrims) (sampler : Sampler)
    (a a' : FishBehaviorAnalyzer) (frames : List (Mat ℚ)) (r : AnalysisResult)
    (h : analyze_behavior P sampler a frames = (a', Except.ok r)) :
    r.avg_speeds.length = frames.length - 1 ∧
    (export_speeds_csv r.avg_speeds).frame_idx = List.range' 1 (frames.length - 1) ∧
    List.Pairwise (· < ·) (export_speeds_csv r.avg_speeds).frame_idx := by
  obtain ⟨f0, f1, rest, ls, rfl, hr, hsp, -, -, -⟩ :=
    analyze_behavior_ok P sampler a frames a' r h
  have hlen := runPairs_ok_speeds_length P sampler a.config (f1 :: rest)
    LoopState.init 1 f0 ls hr
  have hlen' : r.avg_speeds.length = (f0 :: f1 :: rest).length - 1 := by
    rw [hsp, hlen]
    simp [LoopState.init]
  refine ⟨hlen', ?_, ?_⟩
  · show List.range' 1 r.avg_speeds.length = List.range' 1 ((f0 :: f1 :: rest).length - 1)
    rw [hlen']
  · exact pairwise_lt_range_shift 1 r.avg_speeds.length

/-- C1: in a completed run, a sudden-change event exists for pair `k`
exactly when `k` is at least 2, at most the pair count, and the absolute
difference of the pair's average speed from the previous pair's strictly
exceeds the configured threshold; a difference equal to the threshold, or
the first pair, yields no event. -/
theorem sudden_change_iff (P : CVPrims) (sampler : Sampler)
    (a a' : FishBehaviorAnalyzer) (frames : List (Mat ℚ)) (r : AnalysisResult)
    (h : analyze_behavior P sampler a frames = (a', Except.ok r)) (k : Nat) :
    (∃ e ∈ r.sudden_changes, e.frame = k) ↔
      (2 ≤ k ∧ k ≤ r.avg_speeds.length ∧
        a.config.sudden_change_threshold <
          |r.avg_speeds.getD (k - 1) 0 - r.avg_speeds.getD (k - 2) 0|) := by
  obtain ⟨f0, f1, rest, ls, rfl, hr, hsp, -, hsc, -⟩ :=
    analyze_behavior_ok P sampler a frames a' r h
  have hspec := runPairs_sudden_spec P sampler a.config (f1 :: rest)
    LoopState.init f0 ls hr rfl
  rw [hsc, hsp, hspec]
  exact specSuddenChanges_frame_iff a.config.sudden_change_threshold ls.avg_speeds k

/-- C9: invariant of every completed run: the number of sudden-change
events is at most the number of per-pair speed records minus one, since the
first processed pair can never produce an event. -/
theorem sudden_changes_bound (P : CVPrims) (sampler : Sampler)
    (a a' : FishBehaviorAnalyzer) (frames : List (Mat ℚ)) (r : AnalysisResult)
    (h : analyze_behavior P sampler a frames = (a', Except.ok r)) :
    r.sudden_changes.length ≤ r.avg_speeds.length - 1 := by
  obtain ⟨f0, f1, rest, ls, rfl, hr, hsp, -, hsc, -⟩ :=
    analyze_behavior_ok P sampler a frames a' r h
  have hspec := runPairs_sudden_spec P sampler a.config (f1 :: rest)
    LoopState.init f0 ls hr rfl
  rw [hsc, hsp, hspec]
  exact specSuddenChanges_length a.config.sudden_change_threshold ls.avg_speeds

/-- C4: after a successful run over `f0 :: rest`, the heatmap is exactly the
elementwise sum of the per-pair magnitude arrays (the first pair seeding the
accumulator), and it has the spatial dimensions of an individual frame. -/
theorem heatmap_sum (P : CVPrims) (sampler : Sampler)
    (a a' : FishBehaviorAnalyzer) (f0 : Mat ℚ) (rest : List (Mat ℚ))
    (r : AnalysisResult)
    (h : analyze_behavior P sampler a (f0 :: rest) = (a', Except.ok r)) :
    r.heatmap = elementwiseSumHeatmap (pairMagnitudes P f0 rest) ∧
    ∃ hm, r.heatmap = some hm ∧ matDims hm = matDims f0 := by
  obtain ⟨g0, g1, grest, ls, heq, hr, -, -, -, hheat⟩ :=
    analyze_behavior_ok P sampler a (f0 :: rest) a' r h
  have hf0 : f0 = g0 := by injection heq
  have hrest : rest = g1 :: grest := by injection heq with h1 h2
  subst hf0
  subst hrest
  have hchain := runPairs_ok_chain P sampler a.config (g1 :: grest)
    LoopState.init 1 f0 ls hr
  have hdims := pairMagnitudes_dims P (g1 :: grest) f0 hchain
  have hhm := runPairs_heatmap P sampler a.config (g1 :: grest)
    LoopState.init 1 f0 ls hr
  simp only [LoopState.init] at hhm
  rw [foldl_heatmapStep_none] at hhm
  refine ⟨by rw [hheat, hhm], ?_⟩
  rw [hheat, hhm]
  rw [pairMagnitudes, elementwiseSumHeatmap]
  refine ⟨_, rfl, ?_⟩
  apply foldl_matAdd_dims
  · exact hdims _ (by rw [pairMagnitudes]; exact List.mem_cons_self _ _)
  · intro m hm'
    exact hdims m (by rw [pairMagnitudes]; exact List.mem_cons_of_mem _ hm')

lemma stepPair_ok_angles (P : CVPrims) (sampler : Sampler) (cfg : Config)
    (st : LoopState) (i : Nat) (prev_gray gray : Mat ℚ) (st' : LoopState)
    (h : stepPair P sampler cfg st i prev_gray gray = Except.ok st') :
    st'.all_angles = st.all_angles ++
      (sampler (cartToPolarAng P (P.farneback prev_gray gray)).flatten.length
        (min cfg.angle_sample_size
          (cartToPolarAng P (P.farneback prev_gray gray)).flatten.length)).map
        (fun j => (cartToPolarAng P (P.farneback prev_gray gray)).flatten.getD j 0) := by
  unfold stepPair compute_flow_between_frames farnebackRun at h
  by_cases hc : (matNonempty prev_gray && matNonempty gray
      && decide (matDims prev_gray = matDims gray)) = true
  · simp only [hc, if_true, Except.ok.injEq] at h
    subst h
    rfl
  · simp [hc] at h

/-- C8: every successful iteration over a frame pair appends to the angle
accumulator exactly `min(configured cap, cell count of the Angle array)`
samples, drawn at distinct in-range indices of the flattened Angle array
(without replacement), so the per-pair sample size never exceeds the cap. -/
theorem angle_sample_cap (P : CVPrims) (sampler : Sampler) (cfg : Config)
    (st : LoopState) (i : Nat) (prev_gray gray : Mat ℚ) (st' : LoopState)
    (hs : SamplerSpec sampler)
    (h : stepPair P sampler cfg st i prev_gray gray = Except.ok st') :
    ∃ idxs : List Nat,
      idxs.Nodup ∧
      (∀ j ∈ idxs, j < matCells (cartToPolarAng P (P.farneback prev_gray gray))) ∧
      idxs.length = min cfg.angle_sample_size
        (matCells (cartToPolarAng P (P.farneback prev_gray gray))) ∧
      st'.all_angles = st.all_angles ++
        idxs.map (fun j =>
          (cartToPolarAng P (P.farneback prev_gray gray)).flatten.getD j 0) ∧
      st'.all_angles.length = st.all_angles.length +
        min cfg.angle_sample_size
          (matCells (cartToPolarAng P (P.farneback prev_gray gray))) ∧
      st'.all_angles.length - st.all_angles.length ≤ cfg.angle_sample_size := by
  have hang := stepPair_ok_angles P sampler cfg st i prev_gray gray st' h
  set n := (cartToPolarAng P (P.farneback prev_gray gray)).flatten.length with hn
  have hcells : matCells (cartToPolarAng P (P.farneback prev_gray gray)) = n := rfl
  obtain ⟨hlen, hnodup, hbound⟩ :=
    hs n (min cfg.angle_sample_size n) (Nat.min_le_right _ _)
  refine ⟨sampler n (min cfg.angle_sample_size n), hnodup, ?_, ?_, ?_, ?_, ?_⟩
  · intro j hj
    rw [hcells]
    exact hbound j hj
  · rw [hcells]
    exact hlen
  · exact hang
  · rw [hang, hcells]
    simp only [List.length_append, List.length_map]
    rw [hlen]
  · rw [hang]
    simp only [List.length_append, List.length_map]
    rw [hlen]
    omega

end FishSpec

namespace FishSpec

/-- A concrete instantiation of the external primitives for closed-form
examples: the flow field duplicates the first frame's cells, magnitude is
the first component, angle the second. -/
def idPrims : CVPrims where
  farneback := fun a _ => matMap (fun x => (x, x)) a
  farneback_dims := fun a _ => matDims_matMap _ a
  magOf := fun c => c.1
  angOf := fun c => c.2

/-- A concrete deterministic sampler satisfying the numpy draw contract:
the first `k` indices. -/
def rangeSampler : Sampler := fun _ k => List.range k

lemma rangeSampler_spec : SamplerSpec rangeSampler := by
  intro n k hk
  refine ⟨List.length_range k, List.nodup_range k, ?_⟩
  intro j hj
  have := List.mem_range.mp hj
  omega

/-- A fresh analyzer with default configuration and no stored results. -/
def analyzerW : FishBehaviorAnalyzer :=
  { video_path := "video.mp4", config := {}, analysis_results := none }

/-- A three-frame sequence of 1-by-1 grayscale frames whose second pair
jumps in speed by more than the default threshold. -/
def framesW : List (Mat ℚ) := [[[0]], [[10]], [[0]]]

end FishSpec

namespace FishSpec

deriving instance DecidableEq for Except

/-- The analysis result of the example run over `framesW`. -/
def resultW : AnalysisResult :=
  { avg_speeds := [0, 10],
    angles := [0, 10],
    sudden_changes := [{ frame := 2, speed_change := 10,
                         description := "Possible snapping/grazing behavior" }],
    heatmap := some [[10]],
    metadata := { video_path := "video.mp4", frame_skip := 1,
                  frames_analyzed := 2, sudden_changes_count := 1 } }

/-- The analyzer state after the example run over `framesW`. -/
def analyzerW' : FishBehaviorAnalyzer :=
  { video_path := "video.mp4", config := {}, analysis_results := some resultW }

/-- The loop state after one example iteration of the pair loop. -/
def stepW : LoopState :=
  { avg_speeds := [0], all_angles := [0], sudden_changes := [], heatmap := some [[0]] }

/-- The example run evaluates to the expected analyzer state and result. -/
lemma runW_eq :
    analyze_behavior idPrims rangeSampler analyzerW framesW =
      (analyzerW', Except.ok resultW) := by
  norm_num [analyze_behavior, runPairs, stepPair, compute_flow_between_frames,
    farnebackRun, idPrims, rangeSampler, analyzerW, analyzerW', resultW, framesW,
    LoopState.init, matMap, matMean, matCells, matAdd, cartToPolarMag, cartToPolarAng,
    matDims, matNonempty, heatmapStep, List.range_succ, List.getElem?_cons_zero,
    Option.getD_some]

/-- The example loop iteration evaluates to the expected loop state. -/
lemma stepW_eq :
    stepPair idPrims rangeSampler analyzerW.config LoopState.init 1
      [[(0 : ℚ)]] [[(10 : ℚ)]] = Except.ok stepW := by
  norm_num [stepPair, compute_flow_between_frames, farnebackRun, idPrims,
    rangeSampler, analyzerW, stepW, LoopState.init, matMap, matMean, matCells,
    cartToPolarMag, cartToPolarAng, matDims, matNonempty, List.range_succ,
    List.getElem?_cons_zero, Option.getD_some]

/-- Witness for C3 at the empty frame sequence. -/
theorem insufficient_data_atomic_witness :
    ([] : List (Mat ℚ)).length < 2 ∧
    analyze_behavior idPrims rangeSampler analyzerW [] =
      (analyzerW, Except.error AnalysisError.insufficientData) :=
  ⟨by decide, insufficient_data_atomic idPrims rangeSampler analyzerW [] (by decide)⟩

/-- Witness for C5 at a one-pair speed list. -/
theorem sudden_changes_rate_safe_witness :
    0 < [(3 : ℚ)].length ∧
    (export_summary_behavior_events [] [(3 : ℚ)]).sudden_changes_rate =
      ((([] : List SuddenChange)).length : ℚ) / (([(3 : ℚ)].length : ℚ)) :=
  ⟨by decide, (sudden_changes_rate_safe [] [(3 : ℚ)]).1 (by decide)⟩

/-- Witness for C7 at a negative degree value. -/
theorem direction_degrees_range_witness :
    ((320 : ℚ) ∈ angles_deg (fun x => x) [(-40 : ℚ)]) ∧
    (0 ≤ (320 : ℚ) ∧ (320 : ℚ) < 360) := by
  have hmem : (320 : ℚ) ∈ angles_deg (fun x => x) [(-40 : ℚ)] := by
    simp only [angles_deg, npMod, List.map_cons, List.map_nil, List.mem_singleton]
    norm_num
  exact ⟨hmem, direction_degrees_range (fun x => x) [(-40 : ℚ)] 320 hmem⟩

/-- Witness for C10 at a fresh analyzer. -/
theorem requires_results_witness :
    analyzerW.analysis_results = none ∧
    (visualize_results analyzerW = Except.error AnalysisError.noResults ∧
     export_results (fun x => x) analyzerW = Except.error AnalysisError.noResults) :=
  ⟨rfl, requires_results (fun x => x) analyzerW rfl⟩

/-- Witness for C6 at a pair of frames of different dimensions. -/
theorem flow_shape_contract_witness :
    matDims ([[(1 : ℚ)]] : Mat ℚ) ≠ matDims ([] : Mat ℚ) ∧
    compute_flow_between_frames idPrims [[(1 : ℚ)]] [] =
      Except.error AnalysisError.shapeMismatch :=
  ⟨by decide, (flow_shape_contract idPrims).2.1 [[(1 : ℚ)]] [] (by decide)⟩

/-- Witness for C2 at the example run. -/
theorem frame_statistics_count_witness :
    analyze_behavior idPrims rangeSampler analyzerW framesW =
      (analyzerW', Except.ok resultW) ∧
    (resultW.avg_speeds.length = framesW.length - 1 ∧
     (export_speeds_csv resultW.avg_speeds).frame_idx =
       List.range' 1 (framesW.length - 1) ∧
     List.Pairwise (· < ·) (export_speeds_csv resultW.avg_speeds).frame_idx) :=
  ⟨runW_eq, frame_statistics_count idPrims rangeSampler analyzerW analyzerW'
    framesW resultW runW_eq⟩

/-- Witness for C1 at the example run and pair index 2. -/
theorem sudden_change_iff_witness :
    analyze_behavior idPrims rangeSampler analyzerW framesW =
      (analyzerW', Except.ok resultW) ∧
    ((∃ e ∈ resultW.sudden_changes, e.frame = 2) ↔
      (2 ≤ 2 ∧ 2 ≤ resultW.avg_speeds.length ∧
        analyzerW.config.sudden_change_threshold <
          |resultW.avg_speeds.getD (2 - 1) 0 - resultW.avg_speeds.getD (2 - 2) 0|)) :=
  ⟨runW_eq, sudden_change_iff idPrims rangeSampler analyzerW analyzerW'
    framesW resultW runW_eq 2⟩

/-- Witness for C9 at the example run. -/
theorem sudden_changes_bound_witness :
    analyze_behavior idPrims rangeSampler analyzerW framesW =
      (analyzerW', Except.ok resultW) ∧
    resultW.sudden_changes.length ≤ resultW.avg_speeds.length - 1 :=
  ⟨runW_eq, sudden_changes_bound idPrims rangeSampler analyzerW analyzerW'
    framesW resultW runW_eq⟩

/-- Witness for C4 at the example run. -/
theorem heatmap_sum_witness :
    analyze_behavior idPrims rangeSampler analyzerW ([[(0 : ℚ)]] :: [[[(10 : ℚ)]], [[(0 : ℚ)]]]) =
      (analyzerW', Except.ok resultW) ∧
    (resultW.heatmap =
      elementwiseSumHeatmap (pairMagnitudes idPrims [[(0 : ℚ)]] [[[(10 : ℚ)]], [[(0 : ℚ)]]]) ∧
     ∃ hm, resultW.heatmap = some hm ∧ matDims hm = matDims ([[(0 : ℚ)]] : Mat ℚ)) :=
  ⟨runW_eq, heatmap_sum idPrims rangeSampler analyzerW analyzerW'
    [[(0 : ℚ)]] [[[(10 : ℚ)]], [[(0 : ℚ)]]] resultW runW_eq⟩

/-- Witness for C8 at one example iteration. -/
theorem angle_sample_cap_witness :
    SamplerSpec rangeSampler ∧
    stepPair idPrims rangeSampler analyzerW.config LoopState.init 1
        [[(0 : ℚ)]] [[(10 : ℚ)]] = Except.ok stepW ∧
    (∃ idxs : List Nat,
      idxs.Nodup ∧
      (∀ j ∈ idxs,
        j < matCells (cartToPolarAng idPrims (idPrims.farneback [[(0 : ℚ)]] [[(10 : ℚ)]]))) ∧
      idxs.length = min analyzerW.config.angle_sample_size
        (matCells (cartToPolarAng idPrims (idPrims.farneback [[(0 : ℚ)]] [[(10 : ℚ)]]))) ∧
      stepW.all_angles = LoopState.init.all_angles ++
        idxs.map (fun j =>
          (cartToPolarAng idPrims (idPrims.farneback [[(0 : ℚ)]] [[(10 : ℚ)]])).flatten.getD j 0) ∧
      stepW.all_angles.length = LoopState.init.all_angles.length +
        min analyzerW.config.angle_sample_size
          (matCells (cartToPolarAng idPrims (idPrims.farneback [[(0 : ℚ)]] [[(10 : ℚ)]]))) ∧
      stepW.all_angles.length - LoopState.init.all_angles.length ≤
        analyzerW.config.angle_sample_size) :=
  ⟨rangeSampler_spec, stepW_eq,
    angle_sample_cap idPrims rangeSampler analyzerW.config LoopState.init 1
      [[(0 : ℚ)]] [[(10 : ℚ)]] stepW rangeSampler_spec stepW_eq⟩

end FishSpec
